import Mathlib

/-!
A shallow embedding of the ReAct agent core (`src/agent.py`, `src/src/agent.py`,
`src/src/mcp_tools.py`, `src/src/tools.py`) and proofs about it.

Python dictionaries with string keys are modelled as association lists with
in-place update semantics, JSON primitive values as `JPrim`, raised exceptions
as explicit outcome constructors, and the external collaborators (LLM client,
HTTP layer, local tool methods) as function-valued parameters of the embedded
operations.
-/

/-- A JSON-style primitive value: string, boolean, or integer.  The repository
only ever builds and inspects flat string/bool/int-valued mappings in the
behaviors specified, so nested arrays/objects are not modelled. -/
inductive JPrim where
  | s (v : String)
  | b (v : Bool)
  | n (v : Int)
deriving DecidableEq, Repr

/-- A Python `dict[str, ...]` as an association list (insertion ordered, unique
keys when built with `dictSet`). -/
def Dict : Type := List (String × JPrim)

instance : DecidableEq Dict := by unfold Dict; infer_instance

instance : Membership (String × JPrim) Dict := by unfold Dict; infer_instance

instance : Append Dict := by unfold Dict; infer_instance

/-- `d[k] = v` with Python dict semantics: an existing key keeps its original
position and gets the new value; a new key is appended at the end. -/
def dictSet : Dict → String → JPrim → Dict
  | [], k, v => [(k, v)]
  | (k', v') :: rest, k, v =>
    if k' = k then (k', v) :: rest else (k', v') :: dictSet rest k v

/-- `d.get(k)` returning `none` when the key is absent. -/
def dictGet (d : Dict) (k : String) : Option JPrim :=
  (List.find? (fun kv => kv.1 = k) d).map (fun kv => kv.2)

/-- A tool execution result: always a mapping (`ToolResult` in the spec). -/
def ToolResult : Type := Dict

instance : DecidableEq ToolResult := by unfold ToolResult; infer_instance

/-- One conversation turn: a `{"role": ..., "content": ...}` dictionary. -/
structure Message where
  role : String
  content : String
deriving DecidableEq, Repr

/-- The structured interpretation of one model reply
(`_parse_response` / `_process_response` output). -/
structure ParsedAction where
  thought : String
  tool_name : String
  parameters : Dict
deriving DecidableEq

/-- The names for which `hasattr(self.tools, tool_name)` holds for a tool
method of `CodeRepositoryTools` (src/src/tools.py). -/
def localToolNames : List String :=
  ["list_files", "read_file", "write_file", "search_in_files", "get_file_info"]

/-- Outcome of calling a local tool method `tool_method(**parameters)`:
a returned result, a raised `TypeError`, or any other raised exception
(`str(e)` carried as the message). -/
inductive LocalOutcome where
  | ok (result : ToolResult)
  | typeErr (msg : String)
  | raised (msg : String)

/-- The tool environment of a `ReactAgent` instance:
`mcp_tools_present` models `self.mcp_tools_client` being set,
`mcp_tool_names` models `[tool['name'] for tool in self.mcp_tools]`,
`execute_mcp` models `self.mcp_tools_client.execute_mcp_tool`, and
`local_impl` models `getattr(self.tools, tool_name)(**parameters)`. -/
structure ToolEnv where
  mcp_tools_present : Bool
  mcp_tool_names : List String
  execute_mcp : String → Dict → ToolResult
  local_impl : String → Dict → LocalOutcome

/-- `ReactAgent._execute_tool` (src/src/agent.py lines 319-365): special-case
`task_complete`; otherwise try the MCP registry, then the local registry;
wrap raised exceptions into failure mappings. -/
def ReactAgent.execute_tool (env : ToolEnv) (tool_name : String) (parameters : Dict) :
    ToolResult :=
  if tool_name = "task_complete" then
    [("success", JPrim.b true),
     ("summary", (dictGet parameters "summary").getD (JPrim.s "Task completed"))]
  else if env.mcp_tools_present = true ∧ tool_name ∈ env.mcp_tool_names then
    env.execute_mcp tool_name parameters
  else if ¬ tool_name ∈ localToolNames then
    [("success", JPrim.b false), ("error", JPrim.s ("Unknown tool: " ++ tool_name))]
  else
    match env.local_impl tool_name parameters with
    | .ok r => r
    | .typeErr m =>
      [("success", JPrim.b false),
       ("error", JPrim.s ("Invalid parameters for tool " ++ tool_name ++ ": " ++ m))]
    | .raised m =>
      [("success", JPrim.b false),
       ("error", JPrim.s ("Tool execution failed: " ++ m))]

/-- The opening-brace character, written by code point to keep string literals
free of raw braces. -/
def lbrace : Char := Char.ofNat 123

/-- The closing-brace character. -/
def rbrace : Char := Char.ofNat 125

/-- The double-quote character. -/
def dquote : Char := Char.ofNat 34

/-- JSON whitespace (the four characters `json.loads` skips between tokens). -/
def isJsonWs (c : Char) : Bool :=
  c = ' ' ∨ c = '\n' ∨ c = '\t' ∨ c = '\r'

/-- Drop leading JSON whitespace. -/
def skipWs (cs : List Char) : List Char :=
  cs.dropWhile isJsonWs

/-- Scan the body of a JSON string literal up to the closing quote.  Escape
sequences are not modelled; none of the texts this development evaluates on
contain them. -/
def scanStrBody : List Char → List Char → Option (String × List Char)
  | [], _ => none
  | c :: rest, acc =>
    if c = dquote then some (String.mk acc.reverse, rest)
    else scanStrBody rest (c :: acc)

/-- Parse a JSON string literal (opening quote included). -/
def parseStrLit (cs : List Char) : Option (String × List Char) :=
  match cs with
  | [] => none
  | c :: rest => if c = dquote then scanStrBody rest [] else none

/-- Whether `pat` is an initial segment of `cs`. -/
def startsWithChars : List Char → List Char → Bool
  | [], _ => true
  | _ :: _, [] => false
  | p :: ps, c :: rest => p = c && startsWithChars ps rest

/-- The natural number denoted by a list of decimal digits. -/
def digitsToNat (ds : List Char) : Nat :=
  ds.foldl (fun n c => n * 10 + (c.toNat - 48)) 0

/-- Parse an optionally-signed decimal integer literal. -/
def parseIntLit (cs : List Char) : Option (Int × List Char) :=
  match cs with
  | c :: rest =>
    if c = '-' then
      match rest.takeWhile Char.isDigit with
      | [] => none
      | ds => some (- digitsToNat ds, rest.dropWhile Char.isDigit)
    else
      match cs.takeWhile Char.isDigit with
      | [] => none
      | ds => some (digitsToNat ds, cs.dropWhile Char.isDigit)
  | [] => none

/-- Parse one JSON primitive value (string, `true`, `false`, or integer).
Models the value grammar of `json.loads` restricted to the shapes the
repository exchanges. -/
def parseValue (cs : List Char) : Option (JPrim × List Char) :=
  match parseStrLit cs with
  | some (v, rest) => some (JPrim.s v, rest)
  | none =>
    if startsWithChars "true".data cs then some (JPrim.b true, cs.drop 4)
    else if startsWithChars "false".data cs then some (JPrim.b false, cs.drop 5)
    else match parseIntLit cs with
      | some (v, rest) => some (JPrim.n v, rest)
      | none => none

/-- Parse the members of a JSON object after the opening brace (the input is
positioned at the first key, or after a comma).  Duplicate keys keep the last
value, as `json.loads` does. -/
def parseObjMembers : Nat → List Char → Dict → Option (Dict × List Char)
  | 0, _, _ => none
  | fuel + 1, cs, acc =>
    match parseStrLit (skipWs cs) with
    | none => none
    | some (k, cs1) =>
      match skipWs cs1 with
      | ':' :: cs2 =>
        match parseValue (skipWs cs2) with
        | none => none
        | some (v, cs3) =>
          match skipWs cs3 with
          | c :: cs4 =>
            if c = ',' then parseObjMembers fuel cs4 (dictSet acc k v)
            else if c = rbrace then some (dictSet acc k v, cs4)
            else none
          | [] => none
      | _ => none

/-- Parse a whole JSON object starting at an opening brace. -/
def parseObj (cs : List Char) : Option (Dict × List Char) :=
  match cs with
  | c :: rest =>
    if c = lbrace then
      match skipWs rest with
      | c' :: rest' =>
        if c' = rbrace then some ([], rest')
        else parseObjMembers (rest.length + 1) rest []
      | [] => none
    else none
  | [] => none

/-- `json.loads` on a document expected to be one flat object: leading and
trailing whitespace allowed, trailing data rejected (`Extra data` error).
`none` models a raised `json.JSONDecodeError`/`ValueError`.  Documents whose
top-level value is not an object are outside the modelled fragment. -/
def json_loads (s : String) : Option Dict :=
  match parseObj (skipWs s.data) with
  | some (d, rest) => if skipWs rest = [] then some d else none
  | none => none

/-- Parse the elements of a JSON array of objects after the opening bracket. -/
def parseArrMembers : Nat → List Char → List Dict → Option (List Dict × List Char)
  | 0, _, _ => none
  | fuel + 1, cs, acc =>
    match parseObj (skipWs cs) with
    | none => none
    | some (d, cs1) =>
      match skipWs cs1 with
      | c :: cs2 =>
        if c = ',' then parseArrMembers fuel cs2 (acc ++ [d])
        else if c = ']' then some (acc ++ [d], cs2)
        else none
      | [] => none

/-- `json.loads` on a document expected to be an array of flat objects (the
shape of the MCP `/tools` endpoint's reply). -/
def json_loads_list (s : String) : Option (List Dict) :=
  match skipWs s.data with
  | c :: rest =>
    if c = '[' then
      match skipWs rest with
      | c' :: rest' =>
        if c' = ']' then if skipWs rest' = [] then some [] else none
        else
          match parseArrMembers (rest.length + 1) rest [] with
          | some (ds, rest'') => if skipWs rest'' = [] then some ds else none
          | none => none
      | [] => none
    else none
  | [] => none

/-- Index of the last closing brace of a character list, if any. -/
def lastBraceIdx : List Char → Option Nat
  | [] => none
  | c :: cs =>
    match lastBraceIdx cs with
    | some j => some (j + 1)
    | none => if c = rbrace then some 0 else none

/-- Index of the first opening brace strictly before position `j`, if any. -/
def firstBraceBefore : List Char → Nat → Option Nat
  | [], _ => none
  | c :: cs, j =>
    if c = lbrace ∧ 0 < j then some 0
    else (firstBraceBefore cs (j - 1)).map (· + 1)

/-- `re.search(r'\x7b.*\x7d', text, re.DOTALL)` (src/agent.py line 233): the
leftmost match of a greedy brace-to-brace pattern.  It starts at the first
opening brace that has some closing brace after it and extends to the LAST
closing brace of the whole text. -/
def regexBraceMatch (s : String) : Option String :=
  match lastBraceIdx s.data with
  | none => none
  | some j =>
    match firstBraceBefore s.data j with
    | none => none
    | some i => some (String.mk ((s.data.drop i).take (j + 1 - i)))

/-- Scan forward maintaining brace depth until the group opened at depth 1
closes; `acc` holds the consumed characters in reverse. -/
def balancedScan : List Char → Nat → List Char → Option String
  | [], _, _ => none
  | c :: rest, depth, acc =>
    if c = rbrace then
      if depth = 1 then some (String.mk (c :: acc).reverse)
      else balancedScan rest (depth - 1) (c :: acc)
    else if c = lbrace then balancedScan rest (depth + 1) (c :: acc)
    else balancedScan rest depth (c :: acc)

/-- Following the spec's words (section 4.3): "the first balanced
\x7b...\x7d substring" of a text — the substring from the first opening brace
to its matching closing brace.  Stated only to compare with what the code's
pattern search actually extracts (`regexBraceMatch`). -/
def specFirstBalancedBraceGroup (s : String) : Option String :=
  match s.data.dropWhile (fun c => c ≠ lbrace) with
  | [] => none
  | c :: rest => balancedScan rest 1 [c]

/-- Python `str.strip()` whitespace. -/
def isPyWs (c : Char) : Bool :=
  c = ' ' ∨ c = '\t' ∨ c = '\n' ∨ c = '\r' ∨ c = '\x0b' ∨ c = '\x0c'

/-- Python `s.strip()`. -/
def pyStrip (s : String) : String :=
  String.mk (((s.data.dropWhile isPyWs).reverse.dropWhile isPyWs).reverse)

/-- Python `s.startswith(pat)`. -/
def pyStartsWith (s pat : String) : Bool :=
  startsWithChars pat.data s.data

/-- Remove every (non-overlapping, left-to-right) occurrence of `pat`;
the fuel argument only bounds the recursion and is immaterial once at least
`cs.length + 1`. -/
def removeAllOcc (pat : List Char) : Nat → List Char → List Char
  | 0, cs => cs
  | fuel + 1, cs =>
    if startsWithChars pat cs then removeAllOcc pat fuel (cs.drop pat.length)
    else
      match cs with
      | [] => []
      | c :: rest => c :: removeAllOcc pat fuel rest

/-- Python `s.replace(pat, '')` (the only replacement the code performs). -/
def pyRemoveAll (s pat : String) : String :=
  String.mk (removeAllOcc pat.data (s.data.length + 1) s.data)

/-- Split a character list at newline characters. -/
def splitNlAux : List Char → List Char → List String
  | [], acc => [String.mk acc.reverse]
  | c :: rest, acc =>
    if c = '\n' then String.mk acc.reverse :: splitNlAux rest []
    else splitNlAux rest (c :: acc)

/-- `response.strip().split('\n')` (src/agent.py line 199). -/
def splitLines (response : String) : List String :=
  splitNlAux (pyStrip response).data []

/-- The multi-line PARAMETERS text collected at line `i` (src/agent.py lines
206-214): the stripped remainder of the `PARAMETERS:` line, followed by every
subsequent line up to the next `THOUGHT:`/`ACTION:`/`OBSERVATION:` marker. -/
def paramsTextAt (ls : List String) (i : Nat) (line : String) : String :=
  let head := pyStrip (pyRemoveAll line "PARAMETERS:")
  let rest := (ls.drop (i + 1)).takeWhile (fun l =>
    ¬ (pyStartsWith l "THOUGHT:" ∨ pyStartsWith l "ACTION:"
        ∨ pyStartsWith l "OBSERVATION:"))
  rest.foldl (fun acc l => acc ++ "\n" ++ l) head

/-- The scan of `_process_response` over the reply's lines (src/agent.py lines
199-214): the last `ACTION:` line and the last `PARAMETERS:` block win; a line
inside a collected block is still visited by the outer scan. -/
def scanMarkers (ls : List String) : Option String × Option String :=
  (List.range ls.length).foldl
    (fun acc i =>
      let line := ls.getD i ""
      if pyStartsWith line "ACTION:" then
        (some (pyStrip (pyRemoveAll line "ACTION:")), acc.2)
      else if pyStartsWith line "PARAMETERS:" then
        (acc.1, some (paramsTextAt ls i line))
      else acc)
    (none, none)

/-- The parameter-decoding policy of src/agent.py lines 223-242: an absent or
empty text gives the empty mapping; otherwise decode as JSON, and on failure
retry exactly once on the substring found by the greedy brace pattern search,
falling back to the empty mapping. -/
def processParametersText : Option String → Dict
  | none => []
  | some s =>
    if s = "" then []
    else
      match json_loads s with
      | some p => p
      | none =>
        match regexBraceMatch s with
        | some m => (json_loads m).getD []
        | none => []

/-- The parsing half of `ReactAgent._process_response` in the marker (line
prefixed) encoding (src/agent.py lines 197-242): `none` models the
"No ACTION found" early return (the tool name marker absent or its text
empty). -/
def parse_response_marker (response : String) : Option ParsedAction :=
  let ls := splitLines response
  match scanMarkers ls with
  | (none, _) => none
  | (some action_line, params?) =>
    if action_line = "" then none
    else some { thought := "", tool_name := action_line,
                parameters := processParametersText params? }

/-- The outcome of one HTTP request made with `requests`: a response with a
status code and a body, or a raised `requests.exceptions.RequestException`. -/
inductive HttpResponse where
  | ok (status : Nat) (body : String)
  | netError (msg : String)

/-- `str(requests.exceptions.HTTPError)` for a bad status, as raised by
`response.raise_for_status()` (a `RequestException`). -/
def statusErrorMsg (status : Nat) : String :=
  toString status ++ " Error for url"

/-- `McpTools.get_mcp_tools` (src/src/mcp_tools.py lines 36-58) as a function
of the outcome of `requests.get(f"...tools")`: fails soft to the empty list on
a network error, a bad status, or an undecodable body. -/
def McpTools.get_mcp_tools (resp : HttpResponse) : List Dict :=
  match resp with
  | .netError _ => []
  | .ok status body =>
    if 400 ≤ status ∧ status < 600 then []
    else
      match json_loads_list body with
      | some tools => tools
      | none => []

/-- `McpTools.execute_mcp_tool` (src/src/mcp_tools.py lines 60-87) as a
function of the outcome of `requests.post(url, json=parameters)`: fails soft
to a `success: false` mapping carrying the error message. -/
def McpTools.execute_mcp_tool (resp : HttpResponse) : ToolResult :=
  match resp with
  | .netError m => [("success", JPrim.b false), ("error", JPrim.s m)]
  | .ok status body =>
    if 400 ≤ status ∧ status < 600 then
      [("success", JPrim.b false), ("error", JPrim.s (statusErrorMsg status))]
    else
      match json_loads body with
      | some result => result
      | none =>
        [("success", JPrim.b false),
         ("error", JPrim.s "Invalid JSON response from server.")]

/-- `json.dumps` on a flat mapping.  The observation turns embed this text;
its exact indentation (the code passes `indent=2`) is immaterial to every
property proved here, so a single-line rendering is used. -/
def json_dumps (d : Dict) : String :=
  let item := fun (kv : String × JPrim) =>
    let v := match kv.2 with
      | JPrim.s x => String.singleton dquote ++ x ++ String.singleton dquote
      | JPrim.b true => "true"
      | JPrim.b false => "false"
      | JPrim.n x => toString x
    String.singleton dquote ++ kv.1 ++ String.singleton dquote ++ ": " ++ v
  String.singleton lbrace ++ String.intercalate ", " (d.map item) ++
    String.singleton rbrace

/-- The mutable fields of a `ReactAgent` instance set in `__init__`
(src/src/agent.py lines 54-57), plus two ghost counters (`llm_calls`,
`tool_execs`) that count model calls and tool executions for specification
purposes only — no control flow reads them. -/
structure AgentState where
  max_iterations : Nat
  iteration_count : Nat
  conversation_history : List Message
  is_complete : Bool
  llm_calls : Nat
  tool_execs : Nat
deriving DecidableEq, Repr

/-- A freshly constructed agent (`ReactAgent.__init__`). -/
def ReactAgent.mkAgent (max_iterations : Nat) : AgentState :=
  { max_iterations := max_iterations, iteration_count := 0,
    conversation_history := [], is_complete := false,
    llm_calls := 0, tool_execs := 0 }

/-- The record `_process_response` hands back to `run` on success. -/
structure ProcessedTool where
  tool_name : String
  parameters : Dict
  result : ToolResult
deriving DecidableEq

/-- `ReactAgent._process_response` (src/src/agent.py lines 270-317),
parameterized by the response parser: on parse failure return `None` and leave
the history untouched; on success execute the tool and append the observation
as a `user` turn. -/
def ReactAgent.process_response (env : ToolEnv)
    (parse : String → Option ParsedAction) (response : String)
    (history : List Message) : Option ProcessedTool × List Message :=
  match parse response with
  | none => (none, history)
  | some pa =>
    let result := ReactAgent.execute_tool env pa.tool_name pa.parameters
    (some ⟨pa.tool_name, pa.parameters, result⟩,
     history ++ [⟨"user", "<OBSERVATION>" ++ json_dumps result ++ "</OBSERVATION>"⟩])

/-- The first `user` turn `run` seeds the conversation with
(src/src/agent.py lines 89-94). -/
def initialMessage (task : String) : Message :=
  ⟨"user", "Task: " ++ task ++
    "\n\nPlease complete this task using the available tools. Think step by step about what you need to do."⟩

/-- The corrective `user` turn appended when an iteration's try-block raises
(src/src/agent.py lines 116-121); in this embedding only the model call can
raise. -/
def errorTurn (e : String) : Message :=
  ⟨"user", "Error occurred: " ++ e ++ ". Please try a different approach."⟩

/-- One pass of the main loop body of `ReactAgent.run` (src/src/agent.py lines
97-121).  The model client is an oracle from the iteration number and the
history to a reply or a raised fault. -/
def ReactAgent.runIter (llm : Nat → List Message → Except String String)
    (parse : String → Option ParsedAction) (env : ToolEnv)
    (st : AgentState) : AgentState :=
  match llm (st.iteration_count + 1) st.conversation_history with
  | .error e =>
    { st with iteration_count := st.iteration_count + 1,
              llm_calls := st.llm_calls + 1,
              conversation_history := st.conversation_history ++ [errorTurn e] }
  | .ok response =>
    match ReactAgent.process_response env parse response
        (st.conversation_history ++ [⟨"assistant", response⟩]) with
    | (none, hist') =>
      { st with iteration_count := st.iteration_count + 1,
                llm_calls := st.llm_calls + 1,
                conversation_history := hist' }
    | (some tr, hist') =>
      { st with iteration_count := st.iteration_count + 1,
                llm_calls := st.llm_calls + 1,
                tool_execs := st.tool_execs + 1,
                conversation_history := hist',
                is_complete :=
                  if tr.tool_name = "task_complete" then true else st.is_complete }

/-- The `while not self.is_complete and self.iteration_count <
self.max_iterations` loop, by fuel recursion.  Each pass increases
`iteration_count` by one, so fuel `max_iterations - iteration_count` makes
this coincide with the unbounded while loop. -/
def ReactAgent.runLoop (llm : Nat → List Message → Except String String)
    (parse : String → Option ParsedAction) (env : ToolEnv) :
    Nat → AgentState → AgentState
  | 0, st => st
  | fuel + 1, st =>
    if st.is_complete = false ∧ st.iteration_count < st.max_iterations then
      ReactAgent.runLoop llm parse env fuel (ReactAgent.runIter llm parse env st)
    else st

/-- The final result dictionary of `ReactAgent.run` (src/src/agent.py lines
124-129). -/
structure RunResult where
  success : Bool
  iterations : Nat
  max_iterations_reached : Bool
  conversation_length : Nat
deriving DecidableEq, Repr

/-- The agent state when the loop of `ReactAgent.run` has finished: the
conversation is reset to the task turn — `iteration_count` and `is_complete`
are NOT reset — and the loop runs until its guard fails. -/
def ReactAgent.runFinal (llm : Nat → List Message → Except String String)
    (parse : String → Option ParsedAction) (env : ToolEnv) (task : String)
    (st : AgentState) : AgentState :=
  ReactAgent.runLoop llm parse env (st.max_iterations - st.iteration_count)
    { st with conversation_history := [initialMessage task] }

/-- `ReactAgent.run` (src/src/agent.py lines 67-137): run the loop and report
the outcome. -/
def ReactAgent.run (llm : Nat → List Message → Except String String)
    (parse : String → Option ParsedAction) (env : ToolEnv) (task : String)
    (st : AgentState) : RunResult × AgentState :=
  ({ success := (ReactAgent.runFinal llm parse env task st).is_complete,
     iterations := (ReactAgent.runFinal llm parse env task st).iteration_count,
     max_iterations_reached :=
       decide ((ReactAgent.runFinal llm parse env task st).max_iterations
         ≤ (ReactAgent.runFinal llm parse env task st).iteration_count),
     conversation_length :=
       (ReactAgent.runFinal llm parse env task st).conversation_history.length },
   ReactAgent.runFinal llm parse env task st)

/-- An agent whose MCP client fetched a remote tool named `read_file`,
colliding with the local `read_file` method; the two handlers return
distinguishable results. -/
def envC1 : ToolEnv :=
  { mcp_tools_present := true, mcp_tool_names := ["read_file"],
    execute_mcp := fun _ _ => [("success", JPrim.b true), ("source", JPrim.s "remote")],
    local_impl := fun _ _ => .ok [("success", JPrim.b true), ("source", JPrim.s "local")] }

/-- A tool environment with no MCP client and inert local tools. -/
def envPlain : ToolEnv :=
  { mcp_tools_present := false, mcp_tool_names := [],
    execute_mcp := fun _ _ => [],
    local_impl := fun _ _ => .ok [("success", JPrim.b true)] }

/-- A model client that always replies with a thought and no action marker. -/
def llmC2 : Nat → List Message → Except String String :=
  fun _ _ => .ok "THOUGHT: hi"

/-- A model client whose calls always raise (provider error). -/
def llmC3 : Nat → List Message → Except String String :=
  fun _ _ => .error "connection error"

/-- A parser that never finds an action. -/
def parseC3 : String → Option ParsedAction :=
  fun _ => none

/-- The terminal-tool scenario reply of the spec (section 8). -/
def doneReply : String :=
  "<ACTION><tool_name>task_complete</tool_name><parameters><summary>done</summary></parameters></ACTION>"

/-- A model client that always emits the terminal-tool scenario reply. -/
def llmC4 : Nat → List Message → Except String String :=
  fun _ _ => .ok doneReply

/-- `_parse_response` restricted to the terminal-tool scenario reply: on that
reply the XML parse yields `task_complete` with `summary = "done"`. -/
def parseC4 : String → Option ParsedAction :=
  fun response =>
    if response = doneReply then
      some { thought := "", tool_name := "task_complete",
             parameters := [("summary", JPrim.s "done")] }
    else none

/-- An agent whose local `read_file` raises (the file is missing). -/
def envC5 : ToolEnv :=
  { mcp_tools_present := false, mcp_tool_names := [],
    execute_mcp := fun _ _ => [],
    local_impl := fun tool_name _ =>
      if tool_name = "read_file" then .raised "No such file or directory: missing.txt"
      else .ok [("success", JPrim.b true)] }

/-- A model client that always asks for `read_file` on the missing file. -/
def llmC5 : Nat → List Message → Except String String :=
  fun _ _ => .ok "READFILE"

/-- A parser mapping that reply to the `read_file` action. -/
def parseC5 : String → Option ParsedAction :=
  fun response =>
    if response = "READFILE" then
      some { thought := "", tool_name := "read_file",
             parameters := [("filepath", JPrim.s "missing.txt")] }
    else none

/-- A model client that always emits a terminal-tool call with no parameters. -/
def llmC9 : Nat → List Message → Except String String :=
  fun _ _ => .ok "DONE"

/-- A parser mapping that reply to `task_complete` with no `summary` key. -/
def parseC9 : String → Option ParsedAction :=
  fun response =>
    if response = "DONE" then
      some { thought := "", tool_name := "task_complete", parameters := [] }
    else none

/-- An agent instance whose previous run already terminated successfully after
5 of 10 iterations, with its ghost counters at the values of that run. -/
def stC8 : AgentState :=
  { max_iterations := 10, iteration_count := 5,
    conversation_history := [⟨"user", "old"⟩], is_complete := true,
    llm_calls := 7, tool_execs := 3 }

/-- A PARAMETERS text that fails JSON decoding and contains two complete JSON
objects wrapped in prose. -/
def c7input : String :=
  "garbage \x7b\"a\": \"1\"\x7d \x7b\"b\": \"2\"\x7d"

/-- The first balanced brace group inside `c7input`. -/
def c7group : String :=
  "\x7b\"a\": \"1\"\x7d"


/-- `_process_response` on a reply the parser rejects: `None` is returned and
the history is left untouched. -/
theorem process_response_of_none (env : ToolEnv)
    (parse : String → Option ParsedAction) (response : String)
    (history : List Message) (h : parse response = none) :
    ReactAgent.process_response env parse response history = (none, history) := by
  unfold ReactAgent.process_response
  rw [h]

/-- `_process_response` on a reply the parser accepts: the tool executes and
the observation turn is appended. -/
theorem process_response_of_some (env : ToolEnv)
    (parse : String → Option ParsedAction) (response : String)
    (history : List Message) (pa : ParsedAction) (h : parse response = some pa) :
    ReactAgent.process_response env parse response history =
      (some ⟨pa.tool_name, pa.parameters,
         ReactAgent.execute_tool env pa.tool_name pa.parameters⟩,
       history ++ [⟨"user", "<OBSERVATION>" ++
         json_dumps (ReactAgent.execute_tool env pa.tool_name pa.parameters) ++
         "</OBSERVATION>"⟩]) := by
  unfold ReactAgent.process_response
  rw [h]

/-- Shape of one loop pass when the model call raises. -/
theorem runIter_of_error
    (llm : Nat → List Message → Except String String)
    (parse : String → Option ParsedAction) (env : ToolEnv) (st : AgentState)
    (e : String)
    (hL : llm (st.iteration_count + 1) st.conversation_history = .error e) :
    ReactAgent.runIter llm parse env st =
      { st with iteration_count := st.iteration_count + 1,
                llm_calls := st.llm_calls + 1,
                conversation_history := st.conversation_history ++ [errorTurn e] } := by
  unfold ReactAgent.runIter
  rw [hL]

/-- Shape of one loop pass when the model replies but the reply fails to
parse: only the verbatim assistant turn is recorded. -/
theorem runIter_of_ok_none
    (llm : Nat → List Message → Except String String)
    (parse : String → Option ParsedAction) (env : ToolEnv) (st : AgentState)
    (response : String)
    (hL : llm (st.iteration_count + 1) st.conversation_history = .ok response)
    (hP : parse response = none) :
    ReactAgent.runIter llm parse env st =
      { st with iteration_count := st.iteration_count + 1,
                llm_calls := st.llm_calls + 1,
                conversation_history :=
                  st.conversation_history ++ [⟨"assistant", response⟩] } := by
  unfold ReactAgent.runIter
  simp only [hL]
  rw [process_response_of_none env parse response _ hP]

/-- Shape of one loop pass when the reply parses: the assistant turn and the
observation turn are appended and the tool executes. -/
theorem runIter_of_ok_some
    (llm : Nat → List Message → Except String String)
    (parse : String → Option ParsedAction) (env : ToolEnv) (st : AgentState)
    (response : String) (pa : ParsedAction)
    (hL : llm (st.iteration_count + 1) st.conversation_history = .ok response)
    (hP : parse response = some pa) :
    ReactAgent.runIter llm parse env st =
      { st with iteration_count := st.iteration_count + 1,
                llm_calls := st.llm_calls + 1,
                tool_execs := st.tool_execs + 1,
                conversation_history :=
                  st.conversation_history ++ [⟨"assistant", response⟩] ++
                    [⟨"user", "<OBSERVATION>" ++
                      json_dumps (ReactAgent.execute_tool env pa.tool_name pa.parameters) ++
                      "</OBSERVATION>"⟩],
                is_complete :=
                  if pa.tool_name = "task_complete" then true else st.is_complete } := by
  unfold ReactAgent.runIter
  simp only [hL]
  rw [process_response_of_some env parse response _ pa hP]

/-- Every pass of the loop body increments the iteration counter by one. -/
theorem runIter_iteration_count
    (llm : Nat → List Message → Except String String)
    (parse : String → Option ParsedAction) (env : ToolEnv) (st : AgentState) :
    (ReactAgent.runIter llm parse env st).iteration_count
      = st.iteration_count + 1 := by
  cases hL : llm (st.iteration_count + 1) st.conversation_history with
  | error e => rw [runIter_of_error llm parse env st e hL]
  | ok response =>
    cases hP : parse response with
    | none => rw [runIter_of_ok_none llm parse env st response hL hP]
    | some pa => rw [runIter_of_ok_some llm parse env st response pa hL hP]

/-- The loop body never changes the iteration budget. -/
theorem runIter_max_iterations
    (llm : Nat → List Message → Except String String)
    (parse : String → Option ParsedAction) (env : ToolEnv) (st : AgentState) :
    (ReactAgent.runIter llm parse env st).max_iterations = st.max_iterations := by
  cases hL : llm (st.iteration_count + 1) st.conversation_history with
  | error e => rw [runIter_of_error llm parse env st e hL]
  | ok response =>
    cases hP : parse response with
    | none => rw [runIter_of_ok_none llm parse env st response hL hP]
    | some pa => rw [runIter_of_ok_some llm parse env st response pa hL hP]

/-- The loop body only appends to the conversation history. -/
theorem runIter_hist_extends
    (llm : Nat → List Message → Except String String)
    (parse : String → Option ParsedAction) (env : ToolEnv) (st : AgentState) :
    ∃ t, (ReactAgent.runIter llm parse env st).conversation_history
      = st.conversation_history ++ t := by
  cases hL : llm (st.iteration_count + 1) st.conversation_history with
  | error e =>
    rw [runIter_of_error llm parse env st e hL]
    exact ⟨[errorTurn e], rfl⟩
  | ok response =>
    cases hP : parse response with
    | none =>
      rw [runIter_of_ok_none llm parse env st response hL hP]
      exact ⟨[⟨"assistant", response⟩], rfl⟩
    | some pa =>
      rw [runIter_of_ok_some llm parse env st response pa hL hP]
      refine ⟨[⟨"assistant", response⟩,
        ⟨"user", "<OBSERVATION>" ++
          json_dumps (ReactAgent.execute_tool env pa.tool_name pa.parameters) ++
          "</OBSERVATION>"⟩], ?_⟩
      simp

/-- Every message the loop body appends has role `user` or `assistant`. -/
theorem runIter_roles
    (llm : Nat → List Message → Except String String)
    (parse : String → Option ParsedAction) (env : ToolEnv) (st : AgentState)
    (h : ∀ m ∈ st.conversation_history, m.role = "user" ∨ m.role = "assistant") :
    ∀ m ∈ (ReactAgent.runIter llm parse env st).conversation_history,
      m.role = "user" ∨ m.role = "assistant" := by
  cases hL : llm (st.iteration_count + 1) st.conversation_history with
  | error e =>
    rw [runIter_of_error llm parse env st e hL]
    intro m hm
    rcases List.mem_append.mp hm with hm | hm
    · exact h m hm
    · simp at hm; subst hm; left; rfl
  | ok response =>
    cases hP : parse response with
    | none =>
      rw [runIter_of_ok_none llm parse env st response hL hP]
      intro m hm
      rcases List.mem_append.mp hm with hm | hm
      · exact h m hm
      · simp at hm; subst hm; right; rfl
    | some pa =>
      rw [runIter_of_ok_some llm parse env st response pa hL hP]
      intro m hm
      simp only [List.append_assoc, List.mem_append] at hm
      rcases hm with hm | hm
      · exact h m hm
      · simp at hm
        rcases hm with hm | hm
        · subst hm; right; rfl
        · subst hm; left; rfl

/-- If no reply of the model parses to the terminal tool name, the loop body
never sets the completion flag. -/
theorem runIter_not_complete
    (llm : Nat → List Message → Except String String)
    (parse : String → Option ParsedAction) (env : ToolEnv) (st : AgentState)
    (H : ∀ n hist response, llm n hist = .ok response →
      ∀ pa, parse response = some pa → pa.tool_name ≠ "task_complete")
    (h : st.is_complete = false) :
    (ReactAgent.runIter llm parse env st).is_complete = false := by
  cases hL : llm (st.iteration_count + 1) st.conversation_history with
  | error e => rw [runIter_of_error llm parse env st e hL]; exact h
  | ok response =>
    cases hP : parse response with
    | none => rw [runIter_of_ok_none llm parse env st response hL hP]; exact h
    | some pa =>
      rw [runIter_of_ok_some llm parse env st response pa hL hP]
      have hn : pa.tool_name ≠ "task_complete" := H _ _ _ hL pa hP
      simp only [if_neg hn]
      exact h

/-- A loop started in a completed state exits immediately without running its
body. -/
theorem runLoop_of_complete
    (llm : Nat → List Message → Except String String)
    (parse : String → Option ParsedAction) (env : ToolEnv)
    (fuel : Nat) (st : AgentState) (h : st.is_complete = true) :
    ReactAgent.runLoop llm parse env fuel st = st := by
  cases fuel with
  | zero => rfl
  | succ n =>
    unfold ReactAgent.runLoop
    rw [if_neg]
    intro hc
    rw [h] at hc
    exact absurd hc.1 (by simp)

/-- Under a model/parser pair that never yields the terminal tool, running the
loop with fuel that fits in the remaining budget consumes the whole fuel, one
iteration per unit, and never completes. -/
theorem runLoop_exhausts
    (llm : Nat → List Message → Except String String)
    (parse : String → Option ParsedAction) (env : ToolEnv)
    (H : ∀ n hist response, llm n hist = .ok response →
      ∀ pa, parse response = some pa → pa.tool_name ≠ "task_complete") :
    ∀ fuel st, st.is_complete = false →
      st.iteration_count + fuel ≤ st.max_iterations →
      (ReactAgent.runLoop llm parse env fuel st).iteration_count
          = st.iteration_count + fuel ∧
        (ReactAgent.runLoop llm parse env fuel st).is_complete = false ∧
        (ReactAgent.runLoop llm parse env fuel st).max_iterations
          = st.max_iterations := by
  intro fuel
  induction fuel with
  | zero =>
    intro st h1 _
    exact ⟨rfl, h1, rfl⟩
  | succ n ih =>
    intro st h1 h2
    unfold ReactAgent.runLoop
    rw [if_pos ⟨h1, by omega⟩]
    have hc := runIter_iteration_count llm parse env st
    have hm := runIter_max_iterations llm parse env st
    have hnc := runIter_not_complete llm parse env st H h1
    obtain ⟨e1, e2, e3⟩ := ih (ReactAgent.runIter llm parse env st) hnc
      (by rw [hc, hm]; omega)
    refine ⟨?_, e2, ?_⟩
    · rw [e1, hc]; omega
    · rw [e3, hm]

/-- The whole loop only appends to the conversation history. -/
theorem runLoop_hist_extends
    (llm : Nat → List Message → Except String String)
    (parse : String → Option ParsedAction) (env : ToolEnv) :
    ∀ fuel st, ∃ t, (ReactAgent.runLoop llm parse env fuel st).conversation_history
      = st.conversation_history ++ t := by
  intro fuel
  induction fuel with
  | zero => intro st; exact ⟨[], by simp [ReactAgent.runLoop]⟩
  | succ n ih =>
    intro st
    unfold ReactAgent.runLoop
    by_cases hg : st.is_complete = false ∧ st.iteration_count < st.max_iterations
    · rw [if_pos hg]
      obtain ⟨t1, e1⟩ := runIter_hist_extends llm parse env st
      obtain ⟨t2, e2⟩ := ih (ReactAgent.runIter llm parse env st)
      exact ⟨t1 ++ t2, by rw [e2, e1, List.append_assoc]⟩
    · rw [if_neg hg]
      exact ⟨[], by simp⟩

/-- Every message in the history after the loop has role `user` or
`assistant`, provided that held before the loop. -/
theorem runLoop_roles
    (llm : Nat → List Message → Except String String)
    (parse : String → Option ParsedAction) (env : ToolEnv) :
    ∀ fuel st,
      (∀ m ∈ st.conversation_history, m.role = "user" ∨ m.role = "assistant") →
      ∀ m ∈ (ReactAgent.runLoop llm parse env fuel st).conversation_history,
        m.role = "user" ∨ m.role = "assistant" := by
  intro fuel
  induction fuel with
  | zero => intro st h; exact h
  | succ n ih =>
    intro st h
    unfold ReactAgent.runLoop
    by_cases hg : st.is_complete = false ∧ st.iteration_count < st.max_iterations
    · rw [if_pos hg]
      exact ih (ReactAgent.runIter llm parse env st)
        (runIter_roles llm parse env st h)
    · rw [if_neg hg]
      exact h

/-- When `lastBraceIdx` finds nothing, the text has no closing brace. -/
theorem lastBraceIdx_none {cs : List Char} (h : lastBraceIdx cs = none) :
    rbrace ∉ cs := by
  induction cs with
  | nil => simp
  | cons c cs ih =>
    unfold lastBraceIdx at h
    cases hr : lastBraceIdx cs with
    | some j => rw [hr] at h; exact absurd h (by simp)
    | none =>
      rw [hr] at h
      by_cases hc : c = rbrace
      · rw [if_pos hc] at h; exact absurd h (by simp)
      · rw [if_neg hc] at h
        intro hmem
        rcases List.mem_cons.mp hmem with hm | hm
        · exact hc hm.symm
        · exact ih hr hm

/-- `lastBraceIdx` points at a closing brace with no closing brace after it. -/
theorem lastBraceIdx_some {cs : List Char} {j : Nat}
    (h : lastBraceIdx cs = some j) :
    ∃ pre post, cs = pre ++ rbrace :: post ∧ pre.length = j ∧ rbrace ∉ post := by
  induction cs generalizing j with
  | nil => simp [lastBraceIdx] at h
  | cons c cs ih =>
    unfold lastBraceIdx at h
    cases hr : lastBraceIdx cs with
    | some j' =>
      rw [hr] at h
      have hj : j' + 1 = j := by simpa using h
      obtain ⟨pre, post, e1, e2, e3⟩ := ih hr
      exact ⟨c :: pre, post, by simp [e1], by simp [e2, ← hj], e3⟩
    | none =>
      rw [hr] at h
      by_cases hc : c = rbrace
      · rw [if_pos hc] at h
        have hj : j = 0 := by simpa using h.symm
        exact ⟨[], cs, by rw [hc]; rfl, by simp [hj], lastBraceIdx_none hr⟩
      · rw [if_neg hc] at h
        exact absurd h (by simp)

/-- `firstBraceBefore` points at an opening brace strictly before `j`. -/
theorem firstBraceBefore_some {cs : List Char} {j i : Nat}
    (h : firstBraceBefore cs j = some i) :
    ∃ pre post, cs = pre ++ lbrace :: post ∧ pre.length = i ∧ i < j := by
  induction cs generalizing j i with
  | nil => simp [firstBraceBefore] at h
  | cons c cs ih =>
    unfold firstBraceBefore at h
    by_cases hc : c = lbrace ∧ 0 < j
    · rw [if_pos hc] at h
      have hi : i = 0 := by simpa using h.symm
      exact ⟨[], cs, by rw [hc.1]; rfl, by simp [hi], by omega⟩
    · rw [if_neg hc] at h
      rcases Option.map_eq_some'.mp h with ⟨i', hi', hplus⟩
      obtain ⟨pre, post, e1, e2, e3⟩ := ih hi'
      refine ⟨c :: pre, post, by simp [e1], by simp [e2, ← hplus], ?_⟩
      omega

/-- What the greedy pattern search actually extracts: a substring of the text
that starts with an opening brace and ends at the LAST closing brace of the
whole text — no closing brace remains after it. -/
theorem regexBraceMatch_greedy {s m : String} (h : regexBraceMatch s = some m) :
    ∃ pre post, s.data = pre ++ m.data ++ post ∧
      m.data.head? = some lbrace ∧ m.data.getLast? = some rbrace ∧
      rbrace ∉ post := by
  unfold regexBraceMatch at h
  cases hj : lastBraceIdx s.data with
  | none => rw [hj] at h; exact absurd h (by simp)
  | some j =>
    simp only [hj] at h
    cases hi : firstBraceBefore s.data j with
    | none => rw [hi] at h; exact absurd h (by simp)
    | some i =>
      rw [hi] at h
      have hm : m.data = (s.data.drop i).take (j + 1 - i) := by
        have hmk : String.mk ((s.data.drop i).take (j + 1 - i)) = m := by
          simpa using h
        rw [← hmk]
      obtain ⟨preB, postB, eB, lB, nB⟩ := lastBraceIdx_some hj
      obtain ⟨preL, postL, eL, lL, hij⟩ := firstBraceBefore_some hi
      refine ⟨s.data.take i, s.data.drop (j + 1), ?_, ?_, ?_, ?_⟩
      · rw [hm]
        have h2 : (s.data.drop i).drop (j + 1 - i) = s.data.drop (j + 1) := by
          rw [List.drop_drop]
          congr 1
          omega
        calc s.data = s.data.take i ++ s.data.drop i :=
              (List.take_append_drop i s.data).symm
          _ = s.data.take i ++
              ((s.data.drop i).take (j + 1 - i) ++ (s.data.drop i).drop (j + 1 - i)) := by
              congr 1
              exact (List.take_append_drop _ _).symm
          _ = s.data.take i ++
              ((s.data.drop i).take (j + 1 - i) ++ s.data.drop (j + 1)) := by
              rw [h2]
          _ = s.data.take i ++ (s.data.drop i).take (j + 1 - i) ++
              s.data.drop (j + 1) := by
              rw [List.append_assoc]
      · rw [hm]
        have hdropL : s.data.drop i = lbrace :: postL := by
          rw [eL, ← lL, List.drop_left]
        rw [hdropL]
        have hsucc : j + 1 - i = (j - i) + 1 := by omega
        rw [hsucc]
        rfl
      · rw [hm]
        have hswap : (s.data.drop i).take (j + 1 - i) = (s.data.take (j + 1)).drop i :=
          (List.drop_take (j + 1) i s.data).symm
        have htake : s.data.take (j + 1) = preB ++ [rbrace] := by
          rw [eB, List.take_append_eq_append_take,
            List.take_of_length_le (by omega), lB]
          have hone : j + 1 - j = 1 := by omega
          rw [hone]
          rfl
        rw [hswap, htake, List.drop_append_eq_append_drop]
        have hzero : i - preB.length = 0 := by omega
        rw [hzero]
        exact List.getLast?_concat _
      · have hpost : s.data.drop (j + 1) = postB := by
          rw [eB, List.drop_append_eq_append_drop,
            List.drop_eq_nil_of_le (by omega)]
          have hone : j + 1 - preB.length = 1 := by omega
          rw [hone]
          rfl
        rw [hpost]
        exact nB

/-- C1 counterexample: `read_file` is registered both as a local method and in
the fetched MCP tool list, yet dispatching it executes the REMOTE tool — the
result is the remote handler's, not the local handler's. -/
theorem c1_counterexample :
    envC1.mcp_tools_present = true ∧
    "read_file" ∈ envC1.mcp_tool_names ∧
    "read_file" ∈ localToolNames ∧
    envC1.local_impl "read_file" []
      = LocalOutcome.ok [("success", JPrim.b true), ("source", JPrim.s "local")] ∧
    ReactAgent.execute_tool envC1 "read_file" []
      = [("success", JPrim.b true), ("source", JPrim.s "remote")] ∧
    ([("success", JPrim.b true), ("source", JPrim.s "remote")] : ToolResult)
      ≠ [("success", JPrim.b true), ("source", JPrim.s "local")] := by
  refine ⟨rfl, by decide, by decide, rfl, rfl, by decide⟩

/-- C1 (amended): on a name collision the REMOTE registry takes precedence:
whenever an MCP client is configured and the tool name occurs in the fetched
remote tool list (and is not the terminal tool), dispatch goes to the MCP
client, regardless of any local tool of the same name. -/
theorem c1_remote_precedence (env : ToolEnv) (tool_name : String)
    (parameters : Dict)
    (h1 : env.mcp_tools_present = true)
    (h2 : tool_name ∈ env.mcp_tool_names)
    (h3 : tool_name ≠ "task_complete") :
    ReactAgent.execute_tool env tool_name parameters
      = env.execute_mcp tool_name parameters := by
  unfold ReactAgent.execute_tool
  rw [if_neg h3, if_pos ⟨h1, h2⟩]

/-- C1 witness: the amended precedence rule at the colliding name. -/
theorem c1_remote_precedence_witness :
    ReactAgent.execute_tool envC1 "read_file" []
      = envC1.execute_mcp "read_file" [] :=
  c1_remote_precedence envC1 "read_file" [] rfl (by decide) (by decide)

/-- C2 counterexample: on a reply with no tool marker (`THOUGHT: hi`), the
run records the verbatim assistant turn and nothing else — no corrective
`user` turn is appended (the history ends at the assistant turn), and no tool
executes. -/
theorem c2_counterexample :
    parse_response_marker "THOUGHT: hi" = none ∧
    (ReactAgent.run llmC2 parse_response_marker envPlain "t"
        (ReactAgent.mkAgent 1)).2.conversation_history
      = [initialMessage "t", ⟨"assistant", "THOUGHT: hi"⟩] ∧
    (ReactAgent.run llmC2 parse_response_marker envPlain "t"
        (ReactAgent.mkAgent 1)).2.tool_execs = 0 := by
  refine ⟨rfl, rfl, rfl⟩

/-- C2 (amended): on a reply whose tool-name node/marker is absent or empty
(parse failure), the controller appends NO corrective turn: the iteration
records exactly the verbatim assistant turn, executes no tool, leaves the
completion flag unchanged, and proceeds to the next iteration. -/
theorem c2_parse_failure_no_corrective_turn
    (llm : Nat → List Message → Except String String)
    (parse : String → Option ParsedAction) (env : ToolEnv) (st : AgentState)
    (response : String)
    (h1 : llm (st.iteration_count + 1) st.conversation_history = .ok response)
    (h2 : parse response = none) :
    ReactAgent.runIter llm parse env st =
      { st with iteration_count := st.iteration_count + 1,
                llm_calls := st.llm_calls + 1,
                conversation_history :=
                  st.conversation_history ++ [⟨"assistant", response⟩] } :=
  runIter_of_ok_none llm parse env st response h1 h2

/-- C2 witness: the amended behavior at the concrete markerless reply. -/
theorem c2_parse_failure_witness :
    ReactAgent.runIter llmC2 parse_response_marker envPlain (ReactAgent.mkAgent 1)
      = { ReactAgent.mkAgent 1 with
            iteration_count := 1, llm_calls := 1,
            conversation_history := [⟨"assistant", "THOUGHT: hi"⟩] } :=
  c2_parse_failure_no_corrective_turn llmC2 parse_response_marker envPlain
    (ReactAgent.mkAgent 1) "THOUGHT: hi" rfl rfl

/-- C3: for every budget `N ≥ 1`, if no model reply ever parses to the
terminal tool `task_complete`, a fresh run executes exactly `N` iterations and
ends exhausted: `success = false`, `iterations = N`, and the budget is marked
reached. -/
theorem c3_budget_exhaustion (N : Nat) (hN : 1 ≤ N)
    (llm : Nat → List Message → Except String String)
    (parse : String → Option ParsedAction) (env : ToolEnv) (task : String)
    (H : ∀ n hist response, llm n hist = .ok response →
      ∀ pa, parse response = some pa → pa.tool_name ≠ "task_complete") :
    (ReactAgent.run llm parse env task (ReactAgent.mkAgent N)).1.success = false ∧
    (ReactAgent.run llm parse env task (ReactAgent.mkAgent N)).1.iterations = N ∧
    (ReactAgent.run llm parse env task
      (ReactAgent.mkAgent N)).1.max_iterations_reached = true := by
  have hfin := runLoop_exhausts llm parse env H N
    { ReactAgent.mkAgent N with conversation_history := [initialMessage task] }
    rfl (by simp [ReactAgent.mkAgent])
  obtain ⟨e1, e2, e3⟩ := hfin
  have hrf : ReactAgent.runFinal llm parse env task (ReactAgent.mkAgent N)
      = ReactAgent.runLoop llm parse env N
        { ReactAgent.mkAgent N with conversation_history := [initialMessage task] } := rfl
  refine ⟨?_, ?_, ?_⟩
  · show (ReactAgent.runFinal llm parse env task (ReactAgent.mkAgent N)).is_complete = false
    rw [hrf, e2]
  · show (ReactAgent.runFinal llm parse env task (ReactAgent.mkAgent N)).iteration_count = N
    rw [hrf, e1]
    simp [ReactAgent.mkAgent]
  · show decide ((ReactAgent.runFinal llm parse env task (ReactAgent.mkAgent N)).max_iterations
      ≤ (ReactAgent.runFinal llm parse env task (ReactAgent.mkAgent N)).iteration_count) = true
    rw [hrf, e1, e3]
    simp [ReactAgent.mkAgent]

/-- C3 witness: a model whose calls always raise never produces the terminal
tool; with budget 2 the run ends exhausted after exactly 2 iterations. -/
theorem c3_budget_exhaustion_witness :
    (ReactAgent.run llmC3 parseC3 envPlain "t" (ReactAgent.mkAgent 2)).1.success = false ∧
    (ReactAgent.run llmC3 parseC3 envPlain "t" (ReactAgent.mkAgent 2)).1.iterations = 2 ∧
    (ReactAgent.run llmC3 parseC3 envPlain "t"
      (ReactAgent.mkAgent 2)).1.max_iterations_reached = true :=
  c3_budget_exhaustion 2 (by decide) llmC3 parseC3 envPlain "t"
    (by intro n hist response h; exact absurd h (by simp [llmC3]))

/-- C4: `task_complete` is special-cased before either registry is consulted:
its result is the same for EVERY tool environment, carrying the `summary`
parameter (defaulted when absent); on the spec's scenario reply the run
completes at the first iteration with `summary = "done"`. -/
theorem c4_terminal_tool :
    (∀ env parameters, ReactAgent.execute_tool env "task_complete" parameters
      = [("success", JPrim.b true),
         ("summary", (dictGet parameters "summary").getD (JPrim.s "Task completed"))]) ∧
    ReactAgent.execute_tool envPlain "task_complete" [("summary", JPrim.s "done")]
      = [("success", JPrim.b true), ("summary", JPrim.s "done")] ∧
    (ReactAgent.run llmC4 parseC4 envPlain "t" (ReactAgent.mkAgent 5)).1.success = true ∧
    (ReactAgent.run llmC4 parseC4 envPlain "t" (ReactAgent.mkAgent 5)).1.iterations = 1 := by
  refine ⟨?_, rfl, rfl, rfl⟩
  intro env parameters
  unfold ReactAgent.execute_tool
  rw [if_pos rfl]

/-- C5: a raised exception in a resolved local handler is wrapped into a
`success: false` result carrying the message, and the iteration that
dispatched it leaves the completion flag unset, so the loop proceeds. -/
theorem c5_handler_fault_wrapped (env : ToolEnv) (tool_name : String)
    (parameters : Dict) (msg : String)
    (h0 : tool_name ≠ "task_complete")
    (h1 : ¬ (env.mcp_tools_present = true ∧ tool_name ∈ env.mcp_tool_names))
    (h2 : tool_name ∈ localToolNames)
    (h3 : env.local_impl tool_name parameters = LocalOutcome.raised msg) :
    ReactAgent.execute_tool env tool_name parameters
      = [("success", JPrim.b false),
         ("error", JPrim.s ("Tool execution failed: " ++ msg))] ∧
    (∀ llm parse (st : AgentState) response (pa : ParsedAction),
      llm (st.iteration_count + 1) st.conversation_history = .ok response →
      parse response = some pa → pa.tool_name = tool_name →
      st.is_complete = false →
      (ReactAgent.runIter llm parse env st).is_complete = false) := by
  constructor
  · unfold ReactAgent.execute_tool
    rw [if_neg h0, if_neg h1, if_neg (by simpa using h2), h3]
  · intro llm parse st response pa hL hP hname hC
    rw [runIter_of_ok_some llm parse env st response pa hL hP]
    have hn : pa.tool_name ≠ "task_complete" := by rw [hname]; exact h0
    simp only [if_neg hn]
    exact hC

/-- C5 witness: the `read_file` handler raising on a missing file yields the
wrapped failure result, and the loop is not terminated by it. -/
theorem c5_handler_fault_witness :
    ReactAgent.execute_tool envC5 "read_file" [("filepath", JPrim.s "missing.txt")]
      = [("success", JPrim.b false),
         ("error", JPrim.s ("Tool execution failed: " ++
           "No such file or directory: missing.txt"))] ∧
    (ReactAgent.runIter llmC5 parseC5 envC5 (ReactAgent.mkAgent 3)).is_complete
      = false := by
  have h := c5_handler_fault_wrapped envC5 "read_file"
    [("filepath", JPrim.s "missing.txt")] "No such file or directory: missing.txt"
    (by decide) (by simp [envC5]) (by decide) rfl
  exact ⟨h.1, h.2 llmC5 parseC5 (ReactAgent.mkAgent 3) "READFILE"
    ⟨"", "read_file", [("filepath", JPrim.s "missing.txt")]⟩ rfl rfl rfl rfl⟩

/-- C6: the MCP bridge never raises to its caller.  On a network fault, a bad
HTTP status, or an undecodable body, discovery returns the empty list and
invocation returns a `success: false` mapping carrying an error message. -/
theorem c6_bridge_fails_soft :
    (∀ msg, McpTools.get_mcp_tools (HttpResponse.netError msg) = [] ∧
      McpTools.execute_mcp_tool (HttpResponse.netError msg)
        = [("success", JPrim.b false), ("error", JPrim.s msg)]) ∧
    (∀ status body, 400 ≤ status → status < 600 →
      McpTools.get_mcp_tools (HttpResponse.ok status body) = [] ∧
      McpTools.execute_mcp_tool (HttpResponse.ok status body)
        = [("success", JPrim.b false), ("error", JPrim.s (statusErrorMsg status))]) ∧
    (∀ status body, ¬ (400 ≤ status ∧ status < 600) →
      (json_loads_list body = none →
        McpTools.get_mcp_tools (HttpResponse.ok status body) = []) ∧
      (json_loads body = none →
        McpTools.execute_mcp_tool (HttpResponse.ok status body)
          = [("success", JPrim.b false),
             ("error", JPrim.s "Invalid JSON response from server.")])) := by
  refine ⟨fun msg => ⟨rfl, rfl⟩, fun status body hlo hhi => ?_, fun status body hbad => ?_⟩
  · constructor
    · simp only [McpTools.get_mcp_tools]
      rw [if_pos ⟨hlo, hhi⟩]
    · simp only [McpTools.execute_mcp_tool]
      rw [if_pos ⟨hlo, hhi⟩]
  · constructor
    · intro hdec
      simp only [McpTools.get_mcp_tools]
      rw [if_neg hbad, hdec]
    · intro hdec
      simp only [McpTools.execute_mcp_tool]
      rw [if_neg hbad, hdec]

/-- C6 witness: concrete soft failures — a connection fault, a 404 status, and
a well-formed 200 reply whose body is not JSON. -/
theorem c6_bridge_fails_soft_witness :
    (McpTools.get_mcp_tools (HttpResponse.netError "Connection refused") = [] ∧
      McpTools.execute_mcp_tool (HttpResponse.netError "Connection refused")
        = [("success", JPrim.b false), ("error", JPrim.s "Connection refused")]) ∧
    (McpTools.get_mcp_tools (HttpResponse.ok 404 "oops") = [] ∧
      McpTools.execute_mcp_tool (HttpResponse.ok 404 "oops")
        = [("success", JPrim.b false), ("error", JPrim.s (statusErrorMsg 404))]) ∧
    (McpTools.get_mcp_tools (HttpResponse.ok 200 "not json") = [] ∧
      McpTools.execute_mcp_tool (HttpResponse.ok 200 "not json")
        = [("success", JPrim.b false),
           ("error", JPrim.s "Invalid JSON response from server.")]) :=
  ⟨c6_bridge_fails_soft.1 "Connection refused",
   c6_bridge_fails_soft.2.1 404 "oops" (by decide) (by decide),
   ⟨(c6_bridge_fails_soft.2.2 200 "not json" (by omega)).1 rfl,
    (c6_bridge_fails_soft.2.2 200 "not json" (by omega)).2 rfl⟩⟩

/-- C7 counterexample: on a PARAMETERS text holding two JSON objects wrapped
in prose, the claimed retry on the FIRST BALANCED brace group would succeed
and give `a = "1"`, but the code's greedy pattern search grabs first-brace to
last-brace, whose decode fails again, so the action is dispatched with the
EMPTY parameter set. -/
theorem c7_counterexample :
    json_loads c7input = none ∧
    specFirstBalancedBraceGroup c7input = some c7group ∧
    json_loads c7group = some [("a", JPrim.s "1")] ∧
    processParametersText (some c7input) = [] ∧
    ([("a", JPrim.s "1")] : Dict) ≠ [] := by
  refine ⟨rfl, rfl, rfl, rfl, by decide⟩

/-- C7 (amended): when the PARAMETERS text is non-empty and fails JSON
decoding, the parser retries exactly once on the substring found by the
GREEDY pattern search — a substring that starts at an opening brace and ends
at the last closing brace of the whole text (not the first balanced group) —
and falls back to the empty parameter set if that retry fails or no such
substring exists; it never raises. -/
theorem c7_json_recovery (s : String)
    (h1 : json_loads s = none) (h2 : ¬ s = "") :
    processParametersText (some s)
      = (match regexBraceMatch s with
         | some m => (json_loads m).getD []
         | none => ([] : Dict)) ∧
    (∀ m, regexBraceMatch s = some m →
      ∃ pre post, s.data = pre ++ m.data ++ post ∧
        m.data.head? = some lbrace ∧ m.data.getLast? = some rbrace ∧
        rbrace ∉ post) := by
  constructor
  · simp only [processParametersText]
    rw [if_neg h2, h1]
  · intro m hm
    exact regexBraceMatch_greedy hm

/-- C7 witness: the recovery behavior instantiated at the concrete failing
text. -/
theorem c7_json_recovery_witness :
    (processParametersText (some c7input)
      = (match regexBraceMatch c7input with
         | some m => (json_loads m).getD []
         | none => ([] : Dict))) ∧
    (∀ m, regexBraceMatch c7input = some m →
      ∃ pre post, c7input.data = pre ++ m.data ++ post ∧
        m.data.head? = some lbrace ∧ m.data.getLast? = some rbrace ∧
        rbrace ∉ post) :=
  c7_json_recovery c7input rfl (by decide)

/-- C8: calling `run` again on an instance whose previous run already
terminated executes the loop body zero times: no model call, no tool
execution, and the result reports the stale completion flag and iteration
count with a conversation of length 1 (the fresh task turn). -/
theorem c8_second_run_inert
    (llm : Nat → List Message → Except String String)
    (parse : String → Option ParsedAction) (env : ToolEnv) (task : String)
    (st : AgentState)
    (h : st.is_complete = true ∨ st.max_iterations ≤ st.iteration_count) :
    (ReactAgent.run llm parse env task st).1.success = st.is_complete ∧
    (ReactAgent.run llm parse env task st).1.iterations = st.iteration_count ∧
    (ReactAgent.run llm parse env task st).1.conversation_length = 1 ∧
    (ReactAgent.run llm parse env task st).2.llm_calls = st.llm_calls ∧
    (ReactAgent.run llm parse env task st).2.tool_execs = st.tool_execs := by
  have hfin : ReactAgent.runFinal llm parse env task st
      = { st with conversation_history := [initialMessage task] } := by
    rcases h with h | h
    · exact runLoop_of_complete llm parse env _ _ h
    · have hz : st.max_iterations - st.iteration_count = 0 := by omega
      show ReactAgent.runLoop llm parse env
        (st.max_iterations - st.iteration_count) _ = _
      rw [hz]
      rfl
  refine ⟨?_, ?_, ?_, ?_, ?_⟩
  · show (ReactAgent.runFinal llm parse env task st).is_complete = st.is_complete
    rw [hfin]
  · show (ReactAgent.runFinal llm parse env task st).iteration_count
      = st.iteration_count
    rw [hfin]
  · show (ReactAgent.runFinal llm parse env task st).conversation_history.length = 1
    rw [hfin]
    rfl
  · show (ReactAgent.runFinal llm parse env task st).llm_calls = st.llm_calls
    rw [hfin]
  · show (ReactAgent.runFinal llm parse env task st).tool_execs = st.tool_execs
    rw [hfin]

/-- C8 witness: a second run on an agent completed after 5 of 10 iterations
returns the stale `success = true`, `iterations = 5`, a single-turn
conversation, and unchanged ghost counters. -/
theorem c8_second_run_inert_witness :
    (ReactAgent.run llmC3 parseC3 envPlain "t" stC8).1.success = true ∧
    (ReactAgent.run llmC3 parseC3 envPlain "t" stC8).1.iterations = 5 ∧
    (ReactAgent.run llmC3 parseC3 envPlain "t" stC8).1.conversation_length = 1 ∧
    (ReactAgent.run llmC3 parseC3 envPlain "t" stC8).2.llm_calls = 7 ∧
    (ReactAgent.run llmC3 parseC3 envPlain "t" stC8).2.tool_execs = 3 :=
  c8_second_run_inert llmC3 parseC3 envPlain "t" stC8 (Or.inl rfl)

/-- C9: a `task_complete` action with no `summary` key is not rejected: the
dispatcher still reports success with the default summary text, and a run
receiving such an action terminates complete. -/
theorem c9_summary_not_validated (env : ToolEnv) (parameters : Dict)
    (h : dictGet parameters "summary" = none) :
    ReactAgent.execute_tool env "task_complete" parameters
      = [("success", JPrim.b true), ("summary", JPrim.s "Task completed")] ∧
    (ReactAgent.run llmC9 parseC9 envPlain "t" (ReactAgent.mkAgent 5)).1.success
      = true := by
  constructor
  · unfold ReactAgent.execute_tool
    rw [if_pos rfl, h]
    rfl
  · rfl

/-- C9 witness: the empty parameter mapping lacks `summary` and still
completes the run successfully. -/
theorem c9_summary_not_validated_witness :
    dictGet ([] : Dict) "summary" = none ∧
    ReactAgent.execute_tool envPlain "task_complete" []
      = [("success", JPrim.b true), ("summary", JPrim.s "Task completed")] ∧
    (ReactAgent.run llmC9 parseC9 envPlain "t" (ReactAgent.mkAgent 5)).1.success
      = true :=
  ⟨rfl, (c9_summary_not_validated envPlain [] rfl).1,
   (c9_summary_not_validated envPlain [] rfl).2⟩

/-- C10: during a run the conversation history starts at the task turn with
role `user`, every entry has role `user` or `assistant` (never `system`), and
the loop only ever appends — each loop segment's history is the previous
history plus a suffix. -/
theorem c10_history_append_only
    (llm : Nat → List Message → Except String String)
    (parse : String → Option ParsedAction) (env : ToolEnv) (task : String)
    (st : AgentState) :
    (∃ t, (ReactAgent.run llm parse env task st).2.conversation_history
      = initialMessage task :: t) ∧
    (initialMessage task).role = "user" ∧
    (∀ m ∈ (ReactAgent.run llm parse env task st).2.conversation_history,
      m.role = "user" ∨ m.role = "assistant") ∧
    (∀ fuel st', ∃ t,
      (ReactAgent.runLoop llm parse env fuel st').conversation_history
        = st'.conversation_history ++ t) := by
  refine ⟨?_, rfl, ?_, runLoop_hist_extends llm parse env⟩
  · obtain ⟨t, e⟩ := runLoop_hist_extends llm parse env
      (st.max_iterations - st.iteration_count)
      { st with conversation_history := [initialMessage task] }
    exact ⟨t, e⟩
  · intro m hm
    exact runLoop_roles llm parse env (st.max_iterations - st.iteration_count)
      { st with conversation_history := [initialMessage task] }
      (by intro m' hm'; simp at hm'; subst hm'; left; rfl) m hm
